import Mathlib

/-!
Verification of `vapor/api_interface.py` (Steam / ProtonDB rating resolution).

The Python module is embedded shallowly: pure data flow becomes Lean
functions, the collaborator calls (cache lookups, the platform native
check, the ProtonDB tier lookup) become explicit environment parameters,
thrown exceptions become `Except.error`, and the call/callback ordering of
one batch becomes an explicit event trace.  The `asyncio.Semaphore`
concurrency gate is modelled as a step relation on a counter state.
-/

deriving instance DecidableEq for Except

namespace Vapor

/-- HTTP success status code (`HTTP_SUCCESS` of `vapor.data_structures`). -/
def HTTP_SUCCESS : Nat := 200

/-- `MAX_CONCURRENT_REQUESTS = 20`: limit concurrent requests to avoid rate
limiting (`api_interface.py`, line 12). -/
def MAX_CONCURRENT_REQUESTS : Nat := 20

/-- A resolved game entry (the `Game` record of `vapor.data_structures`,
with exactly the fields `api_interface.py` uses): display name, rating
string, cumulative playtime in minutes, and the app id as a string. -/
structure Game where
  name : String
  rating : String
  playtime : Nat
  app_id : String
deriving DecidableEq

/-- One entry of the `games` list of the Steam owned-games payload: the
fields read by `_parse_steam_user_games` are `appid` (an integer, converted
with `str(...)`), `name` and `playtime_forever`. -/
structure SteamGame where
  appid : Nat
  name : String
  playtime_forever : Nat
deriving DecidableEq

/-- Modelled from the spec: the game-cache part of the cache collaborator
(`vapor.cache_handler.Cache` is not among the sources; the spec specifies it
at its interface boundary as `hasFreshGameCache() -> bool` and
`lookup(id) -> rating|absent`).  `has_game_cache` is the freshness flag and
`game_data` the stored id-to-rating association; `get_game_data` returns the
stored rating for an id, `none` when absent. -/
structure Cache where
  has_game_cache : Bool
  game_data : List (String × String)
deriving DecidableEq

/-- Cache lookup: the rating stored for `app_id`, if any. -/
def Cache.get_game_data (c : Cache) (app_id : String) : Option String :=
  c.game_data.lookup app_id

/-- Outcome of the ProtonDB tier-lookup request for one id, as
`get_game_average_rating` consumes it: the HTTP status, and (when the status
is checked and the body parsed) either a thrown decode error or the optional
`tier` field of the JSON body. -/
structure TierResponse where
  status : Nat
  tier : Except Unit (Option String)
deriving DecidableEq

/-- Collaborator behaviour for one batch: `native` is the outcome of
`check_game_is_native` for an id (a boolean, or a thrown transport/parse
error), `tier` the outcome of the ProtonDB request for an id (a response, or
a thrown transport error). -/
structure Env where
  native : String → Except Unit Bool
  tier : String → Except Unit TierResponse

/-- An observable event of one batch: the initial-snapshot callback, a
native-check call, a tier-lookup call, or a per-completion callback. -/
inductive Event where
  | snapshot (games : List Game)
  | native_call (app_id : String)
  | tier_call (app_id : String)
  | update (game : Game)
deriving DecidableEq

/-- Whether an event is the initial-snapshot callback. -/
def Event.isSnapshot : Event → Bool
  | .snapshot _ => true
  | _ => false

/-- Shallow embedding of `get_game_average_rating` (lines 131-163).  The
first component is the returned rating string, or the error thrown out of a
collaborator call; the second is the trace of collaborator calls issued.
The code first consults the cache when it is fresh, then the native check,
then the ProtonDB tier lookup (non-success status gives `pending`, a parsed
body yields its `tier` field with default `pending`). -/
def get_game_average_rating (env : Env) (cache : Cache) (app_id : String) :
    Except Unit String × List Event :=
  let hit : Option String :=
    if cache.has_game_cache then cache.get_game_data app_id else none
  match hit with
  | some rating => (.ok rating, [])
  | none =>
    match env.native app_id with
    | .error e => (.error e, [.native_call app_id])
    | .ok true => (.ok "native", [.native_call app_id])
    | .ok false =>
      match env.tier app_id with
      | .error e => (.error e, [.native_call app_id, .tier_call app_id])
      | .ok resp =>
        if resp.status ≠ HTTP_SUCCESS then
          (.ok "pending", [.native_call app_id, .tier_call app_id])
        else
          match resp.tier with
          | .error e => (.error e, [.native_call app_id, .tier_call app_id])
          | .ok t => (.ok (t.getD "pending"),
              [.native_call app_id, .tier_call app_id])

/-- Shallow embedding of `_fetch_single_game_rating` (lines 243-270): the
`try`/`except Exception` wrapper converts any error thrown by
`get_game_average_rating` into the `pending` rating, so the function always
returns a `Game` (first component) along with the calls issued (second). -/
def fetch_single_game_rating (env : Env) (cache : Cache) (game : SteamGame) :
    Game × List Event :=
  let r := get_game_average_rating env cache (toString game.appid)
  let rating :=
    match r.1 with
    | .ok s => s
    | .error _ => "pending"
  (⟨game.name, rating, game.playtime_forever, toString game.appid⟩, r.2)

/-- A stub environment: native check answers `false`, tier lookup succeeds
with status 200 and no `tier` field (hence `pending`). -/
def envStub : Env :=
  ⟨fun _ => .ok false, fun _ => .ok ⟨HTTP_SUCCESS, .ok none⟩⟩

/-- An environment whose native check throws on every id. -/
def envThrow : Env :=
  ⟨fun _ => .error (), fun _ => .error ()⟩

/-- C4: for every game and every collaborator behaviour (including thrown
transport or parsing errors), resolving one game's rating never raises: the
embedding of `_fetch_single_game_rating` is a total function into `Game`,
its rating is either the successfully resolved rating or `pending`, and
whenever `get_game_average_rating` throws, the rating degrades to `pending`;
name, playtime and id are copied from the input record. -/
theorem fetch_single_game_rating_never_raises (env : Env) (cache : Cache)
    (game : SteamGame) :
    ((fetch_single_game_rating env cache game).1.rating = "pending" ∨
      (get_game_average_rating env cache (toString game.appid)).1 =
        .ok (fetch_single_game_rating env cache game).1.rating) ∧
    (∀ e, (get_game_average_rating env cache (toString game.appid)).1 =
        .error e →
      (fetch_single_game_rating env cache game).1.rating = "pending") ∧
    (fetch_single_game_rating env cache game).1.name = game.name ∧
    (fetch_single_game_rating env cache game).1.playtime =
      game.playtime_forever ∧
    (fetch_single_game_rating env cache game).1.app_id =
      toString game.appid := by
  unfold fetch_single_game_rating
  refine ⟨?_, ?_, rfl, rfl, rfl⟩
  · cases h : (get_game_average_rating env cache (toString game.appid)).1 with
    | ok s => exact Or.inr (by simp [h])
    | error e => exact Or.inl (by simp [h])
  · intro e he
    simp [he]

/-- Witness for C4: with a native check that throws and a stale cache, the
resolver still returns a `Game`, with rating degraded to `pending`. -/
theorem fetch_single_game_rating_never_raises_witness :
    (fetch_single_game_rating envThrow ⟨false, []⟩ ⟨10, "A", 5⟩).1.rating =
      "pending" :=
  (fetch_single_game_rating_never_raises envThrow ⟨false, []⟩
    ⟨10, "A", 5⟩).2.1 () (by decide)

/-- C5: cache short-circuit (lines 146-149).  If the cache is fresh and
holds rating `r` for id `x`, then `get_game_average_rating` returns `r`
with an empty call trace — zero native-check and zero tier-lookup calls —
and `_fetch_single_game_rating` for a game with that id likewise issues no
call and yields `r`. -/
theorem get_game_average_rating_cache_short_circuit (env : Env) (cache : Cache)
    (x r : String) (hfresh : cache.has_game_cache = true)
    (hhit : cache.get_game_data x = some r) :
    get_game_average_rating env cache x = (.ok r, []) ∧
    ∀ game : SteamGame, toString game.appid = x →
      fetch_single_game_rating env cache game =
        (⟨game.name, r, game.playtime_forever, x⟩, []) := by
  have hmain : get_game_average_rating env cache x = (.ok r, []) := by
    unfold get_game_average_rating
    simp [hfresh, hhit]
  refine ⟨hmain, fun game hid => ?_⟩
  unfold fetch_single_game_rating
  rw [hid, hmain]

/-- Witness for C5: a fresh cache holding `gold` for id `10` resolves to
`gold` with no collaborator calls, even when every collaborator would
throw. -/
theorem get_game_average_rating_cache_short_circuit_witness :
    get_game_average_rating envThrow ⟨true, [("10", "gold")]⟩ "10" =
      (.ok "gold", []) ∧
    fetch_single_game_rating envThrow ⟨true, [("10", "gold")]⟩ ⟨10, "A", 5⟩ =
      (⟨"A", "gold", 5, "10"⟩, []) := by
  have h := get_game_average_rating_cache_short_circuit envThrow
    ⟨true, [("10", "gold")]⟩ "10" "gold" (by decide) (by decide)
  exact ⟨h.1, h.2 ⟨10, "A", 5⟩ (by decide)⟩

/-! ### Sorting: Python `list.sort(key=lambda x: x.playtime)` -/

/-- The comparison of `sort(key=lambda x: x.playtime)`. -/
def playtimeLE (a b : Game) : Prop := a.playtime ≤ b.playtime

/-- The comparison of `sort(key=lambda x: x.playtime, reverse=True)`. -/
def playtimeGE (a b : Game) : Prop := b.playtime ≤ a.playtime

instance : DecidableRel playtimeLE := fun a b => Nat.decLe a.playtime b.playtime

instance : DecidableRel playtimeGE := fun a b => Nat.decLe b.playtime a.playtime

instance : IsTotal Game playtimeLE := ⟨fun a b => Nat.le_total a.playtime b.playtime⟩

instance : IsTotal Game playtimeGE := ⟨fun a b => Nat.le_total b.playtime a.playtime⟩

instance : IsTrans Game playtimeLE := ⟨fun _ _ _ h h2 => Nat.le_trans h h2⟩

instance : IsTrans Game playtimeGE := ⟨fun _ _ _ h h2 => Nat.le_trans h2 h⟩

/-- Python `list.sort(key=lambda x: x.playtime)`: CPython sort is stable, so
it is extensionally the stable ascending sort by playtime, pinned by the
sortedness, permutation and tie-stability lemmas below. -/
def pySortAsc (l : List Game) : List Game := List.insertionSort playtimeLE l

/-- Python `list.sort(key=lambda x: x.playtime, reverse=True)`: the stable
descending sort by playtime (`reverse=True` flips comparisons but keeps
equal-key entries in input order). -/
def pySortDesc (l : List Game) : List Game := List.insertionSort playtimeGE l

theorem pySortAsc_perm (l : List Game) : List.Perm (pySortAsc l) l :=
  List.perm_insertionSort playtimeLE l

theorem pySortDesc_perm (l : List Game) : List.Perm (pySortDesc l) l :=
  List.perm_insertionSort playtimeGE l

theorem pySortAsc_sorted (l : List Game) : List.Sorted playtimeLE (pySortAsc l) :=
  List.sorted_insertionSort playtimeLE l

theorem pySortDesc_sorted (l : List Game) : List.Sorted playtimeGE (pySortDesc l) :=
  List.sorted_insertionSort playtimeGE l

/-- Inserting `a` commutes with filtering by a predicate that `a` separates
from every element it is inserted past. -/
theorem filter_orderedInsert {r : Game → Game → Prop} [DecidableRel r]
    (p : Game → Bool) (a : Game)
    (ha : ∀ b, ¬ r a b → p a = true → p b = false) :
    ∀ l : List Game, (List.orderedInsert r a l).filter p =
      if p a then a :: l.filter p else l.filter p
  | [] => by
      cases hpa : p a <;> simp [List.orderedInsert, List.filter, hpa]
  | b :: t => by
      by_cases hr : r a b
      · cases hpa : p a <;>
          simp [List.orderedInsert, hr, List.filter_cons, hpa]
      · have ih := filter_orderedInsert p a ha t
        cases hpa : p a with
        | true =>
            have hpb : p b = false := ha b hr hpa
            simp [List.orderedInsert, hr, List.filter_cons, hpa, hpb, ih]
        | false =>
            simp only [List.orderedInsert, if_neg hr, List.filter_cons, ih,
              hpa, if_neg Bool.false_ne_true]

/-- Stability of the embedded sort: filtering a key class commutes with the
sort, i.e. equal-playtime entries keep their input order. -/
theorem filter_insertionSort {r : Game → Game → Prop} [DecidableRel r]
    (p : Game → Bool)
    (h : ∀ a b, ¬ r a b → p a = true → p b = false) :
    ∀ l : List Game, (List.insertionSort r l).filter p = l.filter p
  | [] => rfl
  | a :: t => by
      rw [List.insertionSort, filter_orderedInsert p a (h a),
        filter_insertionSort p h t]
      cases hpa : p a <;> simp [List.filter_cons, hpa]

/-- Equal-playtime entries of the ascending sort keep their input order. -/
theorem pySortAsc_filter_playtime (k : Nat) (l : List Game) :
    (pySortAsc l).filter (fun g => g.playtime == k) =
      l.filter (fun g => g.playtime == k) := by
  refine filter_insertionSort _ (fun a b hr hpa => ?_) l
  have hlt : b.playtime < a.playtime := Nat.lt_of_not_le hr
  have hak : a.playtime = k := by simpa using hpa
  simp only [beq_eq_false_iff_ne, ne_eq]
  omega

/-- Equal-playtime entries of the descending sort keep their input order. -/
theorem pySortDesc_filter_playtime (k : Nat) (l : List Game) :
    (pySortDesc l).filter (fun g => g.playtime == k) =
      l.filter (fun g => g.playtime == k) := by
  refine filter_insertionSort _ (fun a b hr hpa => ?_) l
  have hlt : a.playtime < b.playtime := Nat.lt_of_not_le hr
  have hak : a.playtime = k := by simpa using hpa
  simp only [beq_eq_false_iff_ne, ne_eq]
  omega

/-! ### The score aggregator (lines 370-374) -/

/-- Modelled from the spec: `RATING_DICT` of `vapor.data_structures` (not
among the sources) maps each rating string to its numeric rank, in the fixed
canonical enumeration order used by the aggregate lookup.  Ranks follow the
spec glossary (borked=1, bronze=2, silver=3, gold=4, platinum=5, native=5)
with the sentinels `pending` and `loading` at rank 0. -/
def RATING_DICT : List (String × Nat) :=
  [("pending", 0), ("loading", 0), ("borked", 1), ("bronze", 2),
    ("silver", 3), ("gold", 4), ("platinum", 5), ("native", 5)]

/-- `RATING_DICT[rating][0]`; `none` stands for the `KeyError` a missing key
raises. -/
def ratingRank (rating : String) : Option Nat := RATING_DICT.lookup rating

/-- Errors `_parse_steam_user_games` can raise: `PrivateAccountError` (line
299), and the unhandled `KeyError` / `ZeroDivisionError` / `StopIteration`
of the aggregate computation on degenerate final lists. -/
inductive PErr where
  | privateAccount
  | keyError
  | zeroDivision
  | stopIteration
deriving DecidableEq

/-- The mathematical rounding of the spec: nearest integer with half-to-even
tie breaking, on an exact rational. -/
def pyRound (q : ℚ) : ℤ :=
  if q - ⌊q⌋ < 1/2 then ⌊q⌋
  else if 1/2 < q - ⌊q⌋ then ⌊q⌋ + 1
  else if ⌊q⌋ % 2 = 0 then ⌊q⌋ else ⌊q⌋ + 1

/-- Python `round(sum(nums)/len(nums))` (line 371), computed exactly on the
integers: with `sum = q*len + r` (`0 ≤ r < len`) the mean rounds to `q` when
`2r < len`, to `q+1` when `2r > len`, and to the even neighbour on the tie
`2r = len`.  `pyRoundMean_eq_pyRound` proves this is rounding the exact
rational mean half-to-even; the float division of line 371 is exact enough
on these small integers to agree. -/
def pyRoundMean (sum len : Nat) : Nat :=
  if 2 * (sum % len) < len then sum / len
  else if len < 2 * (sum % len) then sum / len + 1
  else if sum / len % 2 = 0 then sum / len else sum / len + 1

/-- Shallow embedding of lines 370-374: map each final rating to its rank
(`KeyError` when absent), take `round(sum/len)` (`ZeroDivisionError` on an
empty list), and return the first `RATING_DICT` key whose rank equals the
rounded mean (`StopIteration` when none does). -/
def computeUserAverage (game_ratings : List Game) : Except PErr String :=
  match game_ratings.mapM (fun g => ratingRank g.rating) with
  | none => .error .keyError
  | some nums =>
    if nums.length = 0 then .error .zeroDivision
    else
      match (RATING_DICT.find?
          (fun p => p.2 == pyRoundMean nums.sum nums.length)).map
          Prod.fst with
      | none => .error .stopIteration
      | some t => .ok t

/-! ### The streaming aggregator (`_parse_steam_user_games`, lines 273-376) -/

/-- Lines 304-312: every input game as a `Game` with rating `loading`. -/
def loadingOf (games : List SteamGame) : List Game :=
  games.map (fun g => ⟨g.name, "loading", g.playtime_forever, toString g.appid⟩)

/-- Line 315: the loading list sorted by playtime descending — the list the
initial-snapshot callback receives. -/
def snapshotOf (games : List SteamGame) : List Game :=
  pySortDesc (loadingOf games)

/-- Lines 322-336: the resolution loop.  `order` is the arrival order of
`asyncio.as_completed` (a sequence of indices into `games`; a real run uses
each index exactly once, in nondeterministic order).  Each completion
records its rating in `ratings_map` (later completions shadow earlier ones)
and appends its collaborator-call events and, when `hasUpdated`, the
per-completion callback event. -/
def runTasksStep (env : Env) (cache : Cache) (games : List SteamGame)
    (hasUpdated : Bool) (acc : List (String × String) × List Event) (i : Nat) :
    List (String × String) × List Event :=
  match games[i]? with
  | none => acc
  | some g =>
    let fc := fetch_single_game_rating env cache g
    ((fc.1.app_id, fc.1.rating) :: acc.1,
      acc.2 ++ fc.2 ++ (if hasUpdated then [Event.update fc.1] else []))

/-- The whole resolution loop: fold the completions in arrival order. -/
def runTasks (env : Env) (cache : Cache) (games : List SteamGame)
    (hasUpdated : Bool) (order : List Nat) :
    List (String × String) × List Event :=
  order.foldl (runTasksStep env cache games hasUpdated) ([], [])

/-- Lines 339-350: the final list — substitute each snapshot entry's rating
from the completion map (default `pending`), sort ascending by playtime,
then reverse the whole list. -/
def finalOf (m : List (String × String)) (games : List SteamGame) : List Game :=
  (pySortAsc ((snapshotOf games).map
    (fun g => { g with rating := (m.lookup g.app_id).getD "pending" }))).reverse

/-- Lines 355-359: the final games whose id was already cached pre-batch. -/
def games_to_removeOf (cache : Cache) (game_ratings : List Game) : List Game :=
  game_ratings.filter (fun g => (cache.get_game_data g.app_id).isSome)

/-- Lines 354-364: `game_ratings.copy()` with every already-cached game
removed (`list.remove` deletes the first equal element).  This list is dead:
line 367 commits the unfiltered `game_ratings`. -/
def game_ratings_copyOf (cache : Cache) (game_ratings : List Game) : List Game :=
  (games_to_removeOf cache game_ratings).foldl (fun l g => l.erase g) game_ratings

/-- The owned-games payload: `data['response']`, whose `games` key may be
absent (a private account). -/
structure SteamAPIUserDataResponseBody where
  games : Option (List SteamGame)
deriving DecidableEq

/-- The owned-games payload handed to `_parse_steam_user_games`. -/
structure SteamAPIUserDataResponse where
  response : SteamAPIUserDataResponseBody
deriving DecidableEq

/-- The returned `SteamUserData`: final game list and aggregate rating. -/
structure SteamUserData where
  game_ratings : List Game
  user_average : String
deriving DecidableEq

/-- Everything observable about one successful batch: the returned data, the
event trace, the list handed to `cache.update_cache` (line 367), and the
dead filtered copy of lines 354-364. -/
structure ParseResult where
  data : SteamUserData
  events : List Event
  committed : List Game
  game_ratings_copy : List Game
deriving DecidableEq

/-- Shallow embedding of `_parse_steam_user_games` (lines 273-376): raise
`PrivateAccountError` when the payload has no games list; emit the snapshot
callback; run the resolver tasks; build the final list; commit the
(unfiltered) final list to the cache; compute the aggregate rating. -/
def parse_steam_user_games (env : Env) (cache : Cache)
    (hasLoaded hasUpdated : Bool) (order : List Nat)
    (data : SteamAPIUserDataResponse) : Except PErr ParseResult :=
  match data.response.games with
  | none => .error .privateAccount
  | some games =>
    match computeUserAverage
        (finalOf (runTasks env cache games hasUpdated order).1 games) with
    | .error e => .error e
    | .ok avg =>
      .ok ⟨⟨finalOf (runTasks env cache games hasUpdated order).1 games, avg⟩,
        (if hasLoaded then [Event.snapshot (snapshotOf games)] else []) ++
          (runTasks env cache games hasUpdated order).2,
        finalOf (runTasks env cache games hasUpdated order).1 games,
        game_ratings_copyOf cache
          (finalOf (runTasks env cache games hasUpdated order).1 games)⟩

/-- Eliminating a successful parse into its components. -/
theorem parse_ok_elim {env : Env} {cache : Cache}
    {hasLoaded hasUpdated : Bool} {order : List Nat}
    {data : SteamAPIUserDataResponse} {games : List SteamGame}
    {out : ParseResult}
    (hg : data.response.games = some games)
    (h : parse_steam_user_games env cache hasLoaded hasUpdated order data =
      .ok out) :
    out.data.game_ratings =
      finalOf (runTasks env cache games hasUpdated order).1 games ∧
    out.events =
      (if hasLoaded then [Event.snapshot (snapshotOf games)] else []) ++
        (runTasks env cache games hasUpdated order).2 ∧
    out.committed = out.data.game_ratings ∧
    out.game_ratings_copy = game_ratings_copyOf cache out.data.game_ratings ∧
    computeUserAverage out.data.game_ratings = .ok out.data.user_average := by
  unfold parse_steam_user_games at h
  split at h
  · rename_i heq
    rw [hg] at heq
    exact absurd heq (by simp)
  · rename_i games2 heq
    rw [hg] at heq
    injection heq with heq2
    subst heq2
    split at h
    · exact absurd h (by simp)
    · rename_i avg hca
      injection h with h4
      subst h4
      exact ⟨rfl, rfl, rfl, rfl, hca⟩

/-! ### Helper lemmas -/

/-- A successful association-list lookup locates a member pair. -/
theorem lookup_mem {l : List (String × String)} {k v : String}
    (h : l.lookup k = some v) : (k, v) ∈ l := by
  induction l with
  | nil => simp [List.lookup] at h
  | cons p t ih =>
      obtain ⟨a, b⟩ := p
      cases hk : k == a with
      | true =>
          simp only [List.lookup, hk] at h
          injection h with h2
          subst h2
          have h3 : k = a := by simpa using hk
          subst h3
          exact List.mem_cons_self _ _
      | false =>
          simp only [List.lookup, hk] at h
          exact List.mem_cons_of_mem _ (ih h)

/-- Every call the resolver issues targets the id being resolved, and is a
native-check or tier-lookup call (never a snapshot or update event). -/
theorem get_game_average_rating_events (env : Env) (cache : Cache) (x : String) :
    ∀ e ∈ (get_game_average_rating env cache x).2,
      e = Event.native_call x ∨ e = Event.tier_call x := by
  intro e he
  unfold get_game_average_rating at he
  rcases hh : (if cache.has_game_cache then cache.get_game_data x else none)
      with _ | r <;> simp only [hh] at he
  · rcases hn : env.native x with e1 | b <;> simp only [hn] at he
    · simp at he; simp [he]
    · cases b
      · rcases ht : env.tier x with e2 | resp <;> simp only [ht] at he
        · simp at he; rcases he with he | he <;> simp [he]
        · by_cases hs : resp.status ≠ HTTP_SUCCESS
          · rw [if_pos hs] at he
            simp at he; rcases he with he | he <;> simp [he]
          · rw [if_neg hs] at he
            rcases hti : resp.tier with e3 | t <;> simp only [hti] at he <;>
              (simp at he; rcases he with he | he <;> simp [he])
      · simp at he; simp [he]
  · simp at he

/-- The resolver wrapper issues exactly the calls of the resolver. -/
theorem fetch_events_eq (env : Env) (cache : Cache) (g : SteamGame) :
    (fetch_single_game_rating env cache g).2 =
      (get_game_average_rating env cache (toString g.appid)).2 := rfl

/-- An invariant preserved by each completion is an invariant of the whole
resolution loop. -/
theorem runTasks_foldl_inv {P : List (String × String) × List Event → Prop}
    {env : Env} {cache : Cache} {games : List SteamGame} {hU : Bool}
    (hstep : ∀ acc i, P acc → P (runTasksStep env cache games hU acc i)) :
    ∀ (order : List Nat) (acc : List (String × String) × List Event), P acc →
      P (order.foldl (runTasksStep env cache games hU) acc)
  | [], _, hacc => hacc
  | i :: rest, acc, hacc =>
      runTasks_foldl_inv hstep rest _ (hstep acc i hacc)

/-- No event of the resolution loop is a snapshot event. -/
theorem runTasks_events {env : Env} {cache : Cache} {games : List SteamGame}
    {hU : Bool} {order : List Nat} :
    ∀ e ∈ (runTasks env cache games hU order).2, e.isSnapshot = false := by
  refine runTasks_foldl_inv
    (P := fun acc => ∀ e ∈ acc.2, e.isSnapshot = false) ?_ order ([], [])
    (by simp)
  intro acc i hacc e he
  unfold runTasksStep at he
  rcases hgi : games[i]? with _ | g <;> simp only [hgi] at he
  · exact hacc e he
  · simp only [List.mem_append] at he
    rcases he with (he | he) | he
    · exact hacc e he
    · rw [fetch_events_eq] at he
      rcases get_game_average_rating_events env cache (toString g.appid) e he
          with h1 | h1 <;> simp [h1, Event.isSnapshot]
    · cases hU
      · simp at he
      · simp at he; simp [he, Event.isSnapshot]

/-- Every entry of the completion map is the id/rating pair produced by the
resolver wrapper for some input game. -/
theorem runTasks_map_mem {env : Env} {cache : Cache} {games : List SteamGame}
    {hU : Bool} {order : List Nat} :
    ∀ q ∈ (runTasks env cache games hU order).1, ∃ g, g ∈ games ∧
      q = ((fetch_single_game_rating env cache g).1.app_id,
        (fetch_single_game_rating env cache g).1.rating) := by
  refine runTasks_foldl_inv
    (P := fun acc => ∀ q ∈ acc.1, ∃ g, g ∈ games ∧
      q = ((fetch_single_game_rating env cache g).1.app_id,
        (fetch_single_game_rating env cache g).1.rating)) ?_ order ([], [])
    (by simp)
  intro acc i hacc q hq
  unfold runTasksStep at hq
  rcases hgi : games[i]? with _ | g <;> simp only [hgi] at hq
  · exact hacc q hq
  · rw [List.mem_cons] at hq
    rcases hq with rfl | hq
    · exact ⟨g, List.getElem?_mem hgi, rfl⟩
    · exact hacc q hq

/-- The ratings the caller may legitimately observe in a final list: the
five tiers, `native`, and `pending` (never `loading`). -/
def validFinalRating (s : String) : Prop :=
  s ∈ (["borked", "bronze", "silver", "gold", "platinum", "native",
    "pending"] : List String)

/-- If the cache stores only valid final ratings and the tier-lookup service
answers only with valid final ratings, every successfully resolved rating is
a valid final rating. -/
theorem get_game_average_rating_ok_valid {env : Env} {cache : Cache}
    (Hc : ∀ i r, cache.get_game_data i = some r → validFinalRating r)
    (Ht : ∀ i resp t, env.tier i = .ok resp → resp.tier = .ok (some t) →
      validFinalRating t)
    (x s : String) (h : (get_game_average_rating env cache x).1 = .ok s) :
    validFinalRating s := by
  unfold get_game_average_rating at h
  rcases hh : (if cache.has_game_cache then cache.get_game_data x else none)
      with _ | r <;> simp only [hh] at h
  · rcases hn : env.native x with e1 | b <;> simp only [hn] at h
    · simp at h
    · cases b
      · rcases ht : env.tier x with e2 | resp <;> simp only [ht] at h
        · simp at h
        · by_cases hs : resp.status ≠ HTTP_SUCCESS
          · rw [if_pos hs] at h
            simp only [Prod.fst] at h
            injection h with h2
            subst h2
            simp [validFinalRating]
          · rw [if_neg hs] at h
            rcases hti : resp.tier with e3 | t <;> simp only [hti] at h
            · simp at h
            · rcases t with _ | t0
              · simp only [Option.getD] at h
                injection h with h2
                subst h2
                simp [validFinalRating]
              · simp only [Option.getD] at h
                injection h with h2
                subst h2
                exact Ht x resp t0 ht hti
      · simp only [Prod.fst] at h
        injection h with h2
        subst h2
        simp [validFinalRating]
  · have hf : cache.has_game_cache = true := by
      by_contra hf
      rw [if_neg hf] at hh
      exact absurd hh (by simp)
    rw [if_pos hf] at hh
    injection h with h2
    subst h2
    exact Hc x r hh

/-- Under the same collaborator hypotheses, the wrapper's rating is always a
valid final rating (errors degrade to `pending`). -/
theorem fetch_rating_valid {env : Env} {cache : Cache}
    (Hc : ∀ i r, cache.get_game_data i = some r → validFinalRating r)
    (Ht : ∀ i resp t, env.tier i = .ok resp → resp.tier = .ok (some t) →
      validFinalRating t)
    (g : SteamGame) :
    validFinalRating (fetch_single_game_rating env cache g).1.rating := by
  unfold fetch_single_game_rating
  rcases hr : (get_game_average_rating env cache (toString g.appid)).1
      with e | s
  · simp only [hr]
    simp [validFinalRating]
  · simp only [hr]
    exact get_game_average_rating_ok_valid Hc Ht _ s hr

/-! ### Shape of the snapshot and final lists -/

theorem snapshotOf_perm (games : List SteamGame) :
    List.Perm (snapshotOf games) (loadingOf games) :=
  pySortDesc_perm _

theorem snapshotOf_rating {games : List SteamGame} {g : Game}
    (hg : g ∈ snapshotOf games) : g.rating = "loading" := by
  have h2 := (snapshotOf_perm games).mem_iff.mp hg
  unfold loadingOf at h2
  rcases List.mem_map.mp h2 with ⟨g0, _, rfl⟩
  rfl

theorem snapshotOf_sorted (games : List SteamGame) :
    List.Sorted playtimeGE (snapshotOf games) :=
  pySortDesc_sorted _

theorem snapshotOf_filter (games : List SteamGame) (p : Nat) :
    (snapshotOf games).filter (fun g => g.playtime == p) =
      (loadingOf games).filter (fun g => g.playtime == p) :=
  pySortDesc_filter_playtime p _

theorem finalOf_length (m : List (String × String)) (games : List SteamGame) :
    (finalOf m games).length = games.length := by
  unfold finalOf
  rw [List.length_reverse]
  rw [(pySortAsc_perm _).length_eq, List.length_map]
  unfold snapshotOf
  rw [(pySortDesc_perm _).length_eq]
  unfold loadingOf
  rw [List.length_map]

theorem finalOf_ids_perm (m : List (String × String)) (games : List SteamGame) :
    List.Perm ((finalOf m games).map (fun g => g.app_id))
      (games.map (fun g => toString g.appid)) := by
  unfold finalOf
  rw [List.map_reverse]
  refine (List.reverse_perm _).trans ?_
  refine ((pySortAsc_perm _).map _).trans ?_
  rw [List.map_map]
  have h2 : ((snapshotOf games).map ((fun g => g.app_id) ∘ (fun g =>
      { g with rating := ((m.lookup g.app_id).getD "pending") }))) =
      (snapshotOf games).map (fun g => g.app_id) := by
    simp [Function.comp]
  rw [h2]
  refine ((pySortDesc_perm _).map _).trans ?_
  unfold loadingOf
  rw [List.map_map]
  exact List.Perm.refl _

theorem finalOf_sorted (m : List (String × String)) (games : List SteamGame) :
    List.Sorted playtimeGE (finalOf m games) := by
  unfold finalOf
  exact List.pairwise_reverse.mpr (pySortAsc_sorted _)

theorem finalOf_mem (m : List (String × String)) (games : List SteamGame)
    {g : Game} (hg : g ∈ finalOf m games) :
    ∃ g0 ∈ snapshotOf games,
      g = { g0 with rating := ((m.lookup g0.app_id).getD "pending") } := by
  unfold finalOf at hg
  rw [List.mem_reverse] at hg
  have hg2 := (pySortAsc_perm _).mem_iff.mp hg
  rcases List.mem_map.mp hg2 with ⟨g0, hg0, hEq⟩
  exact ⟨g0, hg0, hEq.symm⟩

theorem finalOf_rating (m : List (String × String)) (games : List SteamGame)
    {g : Game} (hg : g ∈ finalOf m games) :
    g.rating = "pending" ∨ m.lookup g.app_id = some g.rating := by
  rcases finalOf_mem m games hg with ⟨g0, _, rfl⟩
  rcases hl : m.lookup g0.app_id with _ | v
  · left; simp [hl]
  · right; simp [hl]

theorem finalOf_filter_ids (m : List (String × String))
    (games : List SteamGame) (p : Nat) :
    ((finalOf m games).filter (fun g => g.playtime == p)).map
        (fun g => g.app_id) =
      (((snapshotOf games).filter (fun g => g.playtime == p)).map
        (fun g => g.app_id)).reverse := by
  unfold finalOf
  rw [List.filter_reverse, pySortAsc_filter_playtime, List.map_reverse]
  congr 1
  rw [List.filter_map, List.map_map]
  rfl

/-- An empty, stale cache. -/
def cacheEmpty : Cache := ⟨false, []⟩

/-- C1 (amended): for every valid batch, the final list has exactly as many
entries as the input games list and the multiset of output identifiers
equals the multiset of input identifiers; identifiers are unique within the
result WHENEVER the input identifiers are pairwise distinct.  (As stated the
claim fails: a batch that repeats an appid yields a result that repeats that
identifier, see the counterexample.) -/
theorem parse_preserves_count_and_ids
    (env : Env) (cache : Cache) (hasLoaded hasUpdated : Bool)
    (order : List Nat) (data : SteamAPIUserDataResponse)
    (games : List SteamGame) (out : ParseResult)
    (hg : data.response.games = some games)
    (h : parse_steam_user_games env cache hasLoaded hasUpdated order data =
      .ok out) :
    out.data.game_ratings.length = games.length ∧
    List.Perm (out.data.game_ratings.map (fun g => g.app_id))
      (games.map (fun g => toString g.appid)) ∧
    ((games.map (fun g => toString g.appid)).Nodup →
      (out.data.game_ratings.map (fun g => g.app_id)).Nodup) := by
  obtain ⟨hfin, _, _, _, _⟩ := parse_ok_elim hg h
  rw [hfin]
  exact ⟨finalOf_length _ _, finalOf_ids_perm _ _,
    fun hnd => ((finalOf_ids_perm _ _).nodup_iff).mpr hnd⟩

/-- Witness for C1 (amended): a two-game batch with distinct appids 10 and
20 keeps its count and identifier multiset, and the result identifiers are
unique. -/
theorem parse_preserves_count_and_ids_witness :
    (parse_steam_user_games envStub cacheEmpty false false [0, 1]
        ⟨⟨some [⟨10, "A", 5⟩, ⟨20, "B", 7⟩]⟩⟩).toOption.map
      (fun out => (out.data.game_ratings.length,
        (out.data.game_ratings.map (fun g => g.app_id)).Nodup)) =
      some (2, True) := by
  rcases hout : parse_steam_user_games envStub cacheEmpty false false [0, 1]
      ⟨⟨some [⟨10, "A", 5⟩, ⟨20, "B", 7⟩]⟩⟩ with e | out
  · cases e <;> exact absurd hout (by decide)
  · obtain ⟨hlen, _, hnd⟩ := parse_preserves_count_and_ids envStub cacheEmpty
      false false [0, 1] _ _ out rfl hout
    simp only [Except.toOption, Option.map_some']
    have hnd2 := hnd (by decide)
    simp [hlen, hnd2]

/-- C1 counterexample: the batch `[{appid 10, "A", 5}, {appid 10, "B", 7}]`
carries a games list (it is a valid batch) and succeeds, yet the result
identifier list is `["10", "10"]` — not unique. -/
theorem parse_duplicate_ids_counterexample :
    (parse_steam_user_games envStub cacheEmpty false false [0, 1]
        ⟨⟨some [⟨10, "A", 5⟩, ⟨10, "B", 7⟩]⟩⟩).toOption.map
      (fun out => out.data.game_ratings.map (fun g => g.app_id)) =
      some ["10", "10"] ∧
    ¬ (["10", "10"] : List String).Nodup := by
  constructor
  · decide
  · decide

/-- C2: for every valid batch whose cache stores only valid final ratings
and whose tier-lookup service answers only with valid final ratings, the
final result list is sorted by playtime descending, and every entry's
rating is a tier, `native`, or `pending` — never `loading`. -/
theorem parse_final_sorted_and_ratings_valid
    (env : Env) (cache : Cache) (hasLoaded hasUpdated : Bool)
    (order : List Nat) (data : SteamAPIUserDataResponse)
    (games : List SteamGame) (out : ParseResult)
    (hg : data.response.games = some games)
    (h : parse_steam_user_games env cache hasLoaded hasUpdated order data =
      .ok out)
    (Hc : ∀ i r, cache.get_game_data i = some r → validFinalRating r)
    (Ht : ∀ i resp t, env.tier i = .ok resp → resp.tier = .ok (some t) →
      validFinalRating t) :
    List.Sorted playtimeGE out.data.game_ratings ∧
    ∀ g ∈ out.data.game_ratings,
      validFinalRating g.rating ∧ g.rating ≠ "loading" := by
  obtain ⟨hfin, _, _, _, _⟩ := parse_ok_elim hg h
  rw [hfin]
  refine ⟨finalOf_sorted _ _, fun g hgmem => ?_⟩
  have hval : validFinalRating g.rating := by
    rcases finalOf_rating _ _ hgmem with hp | hl
    · rw [hp]; simp [validFinalRating]
    · rcases runTasks_map_mem _ (lookup_mem hl) with ⟨g0, _, hq⟩
      have h2 : g.rating = (fetch_single_game_rating env cache g0).1.rating :=
        congrArg Prod.snd hq
      rw [h2]
      exact fetch_rating_valid Hc Ht g0
  refine ⟨hval, fun hcontra => ?_⟩
  rw [hcontra] at hval
  simp [validFinalRating] at hval

/-- Witness for C2: a concrete one-game batch against the stub environment
and the empty cache produces a final list with no `loading` rating. -/
theorem parse_final_sorted_and_ratings_valid_witness :
    (parse_steam_user_games envStub cacheEmpty true true [0]
        ⟨⟨some [⟨10, "A", 5⟩]⟩⟩).toOption.map
      (fun out => out.data.game_ratings.all
        (fun g => decide (g.rating ≠ "loading"))) = some true := by
  rcases hout : parse_steam_user_games envStub cacheEmpty true true [0]
      ⟨⟨some [⟨10, "A", 5⟩]⟩⟩ with e | out
  · cases e <;> exact absurd hout (by decide)
  · have h := parse_final_sorted_and_ratings_valid envStub cacheEmpty
      true true [0] _ _ out rfl hout
      (by intro i r hr; simp [Cache.get_game_data, cacheEmpty] at hr)
      (by
        intro i resp t hresp hti
        simp only [envStub] at hresp
        injection hresp with h2
        rw [← h2] at hti
        simp at hti)
    simp only [Except.toOption, Option.map_some', Option.some.injEq]
    rw [List.all_eq_true]
    intro g hgmem
    simpa using (h.2 g hgmem).2

/-- C3: with the snapshot callback provided, a successful batch's event
trace starts with the snapshot event (hence it precedes every native-check
call, every tier-lookup call and every per-completion callback, which all
live in the resolution part of the trace), the snapshot event occurs
exactly once, and its list is every input game with rating `loading`,
sorted by playtime descending with ties preserving input order. -/
theorem parse_snapshot_first
    (env : Env) (cache : Cache) (hasUpdated : Bool)
    (order : List Nat) (data : SteamAPIUserDataResponse)
    (games : List SteamGame) (out : ParseResult)
    (hg : data.response.games = some games)
    (h : parse_steam_user_games env cache true hasUpdated order data =
      .ok out) :
    out.events.head? = some (Event.snapshot (snapshotOf games)) ∧
    out.events.countP Event.isSnapshot = 1 ∧
    List.Perm (snapshotOf games) (loadingOf games) ∧
    (∀ g ∈ snapshotOf games, g.rating = "loading") ∧
    List.Sorted playtimeGE (snapshotOf games) ∧
    ∀ p : Nat, (snapshotOf games).filter (fun g => g.playtime == p) =
      (loadingOf games).filter (fun g => g.playtime == p) := by
  obtain ⟨_, hev, _, _, _⟩ := parse_ok_elim hg h
  rw [hev]
  refine ⟨by simp, ?_, snapshotOf_perm games, fun g hgm => snapshotOf_rating hgm,
    snapshotOf_sorted games, fun p => snapshotOf_filter games p⟩
  rw [if_pos rfl, List.singleton_append, List.countP_cons_of_pos _ _ (by rfl)]
  rw [List.countP_eq_zero.mpr]
  intro e he
  simp [runTasks_events e he]

/-- Witness for C3: on a concrete two-game batch the trace begins with the
snapshot of both games marked `loading`, sorted by playtime descending. -/
theorem parse_snapshot_first_witness :
    (parse_steam_user_games envStub cacheEmpty true true [0, 1]
        ⟨⟨some [⟨10, "A", 5⟩, ⟨20, "B", 7⟩]⟩⟩).toOption.map
      (fun out => out.events.head?) =
      some (some (Event.snapshot
        (snapshotOf [⟨10, "A", 5⟩, ⟨20, "B", 7⟩]))) := by
  rcases hout : parse_steam_user_games envStub cacheEmpty true true [0, 1]
      ⟨⟨some [⟨10, "A", 5⟩, ⟨20, "B", 7⟩]⟩⟩ with e | out
  · cases e <;> exact absurd hout (by decide)
  · have h := parse_snapshot_first envStub cacheEmpty true [0, 1] _ _ out
      rfl hout
    simp only [Except.toOption, Option.map_some', Option.some.injEq]
    exact h.1

/-- C10: for every successful batch, equal-playtime games appear in the
final list in the reverse of their snapshot order (the code sorts ascending,
stably, then reverses the whole list), while the snapshot keeps them in
input order — so whenever two tied games are distinct, snapshot and final
list disagree on their order. -/
theorem final_reverses_tie_order
    (env : Env) (cache : Cache) (hasLoaded hasUpdated : Bool)
    (order : List Nat) (data : SteamAPIUserDataResponse)
    (games : List SteamGame) (out : ParseResult)
    (hg : data.response.games = some games)
    (h : parse_steam_user_games env cache hasLoaded hasUpdated order data =
      .ok out) :
    ∀ p : Nat,
      ((out.data.game_ratings.filter (fun g => g.playtime == p)).map
          (fun g => g.app_id) =
        (((snapshotOf games).filter (fun g => g.playtime == p)).map
          (fun g => g.app_id)).reverse) ∧
      (snapshotOf games).filter (fun g => g.playtime == p) =
        (loadingOf games).filter (fun g => g.playtime == p) := by
  obtain ⟨hfin, _, _, _, _⟩ := parse_ok_elim hg h
  rw [hfin]
  exact fun p => ⟨finalOf_filter_ids _ _ p, snapshotOf_filter games p⟩

/-- Witness for C10: two games tied at playtime 5 arrive in input order
`["1", "2"]` in the snapshot but `["2", "1"]` in the final list. -/
theorem final_reverses_tie_order_witness :
    (parse_steam_user_games envStub cacheEmpty false false [0, 1]
        ⟨⟨some [⟨1, "A", 5⟩, ⟨2, "B", 5⟩]⟩⟩).toOption.map
      (fun out => (out.data.game_ratings.filter
        (fun g => g.playtime == 5)).map (fun g => g.app_id)) =
      some ((((snapshotOf [⟨1, "A", 5⟩, ⟨2, "B", 5⟩]).filter
        (fun g => g.playtime == 5)).map (fun g => g.app_id)).reverse) := by
  rcases hout : parse_steam_user_games envStub cacheEmpty false false [0, 1]
      ⟨⟨some [⟨1, "A", 5⟩, ⟨2, "B", 5⟩]⟩⟩ with e | out
  · cases e <;> exact absurd hout (by decide)
  · have h := final_reverses_tie_order envStub cacheEmpty false false [0, 1]
      _ _ out rfl hout 5
    simp only [Except.toOption, Option.map_some', Option.some.injEq]
    exact h.1

/-- The integer computation of `pyRoundMean` is exactly half-to-even
rounding of the exact rational mean. -/
theorem pyRoundMean_eq_pyRound (s n : Nat) (hn : n ≠ 0) :
    (pyRoundMean s n : ℤ) = pyRound ((s : ℚ) / (n : ℚ)) := by
  have hnpos : 0 < n := Nat.pos_of_ne_zero hn
  have hn0 : (0 : ℚ) < (n : ℚ) := by exact_mod_cast hnpos
  have hmod : n * (s / n) + s % n = s := Nat.div_add_mod s n
  have hrn : s % n < n := Nat.mod_lt s hnpos
  have hs : (s : ℚ) = (n : ℚ) * ((s / n : Nat) : ℚ) + ((s % n : Nat) : ℚ) := by
    exact_mod_cast hmod.symm
  have hfloor : ⌊(s : ℚ) / (n : ℚ)⌋ = ((s / n : Nat) : ℤ) := by
    exact_mod_cast Rat.floor_natCast_div_natCast s n
  have hfr : (s : ℚ) / (n : ℚ) - ((s / n : Nat) : ℚ) =
      ((s % n : Nat) : ℚ) / (n : ℚ) := by
    rw [hs]
    field_simp
  have hlt : ((s % n : Nat) : ℚ) / (n : ℚ) < 1 / 2 ↔ 2 * (s % n) < n := by
    rw [div_lt_div_iff₀ hn0 (by norm_num : (0 : ℚ) < 2), one_mul, mul_comm]
    norm_cast
  have hgt : 1 / 2 < ((s % n : Nat) : ℚ) / (n : ℚ) ↔ n < 2 * (s % n) := by
    rw [div_lt_div_iff₀ (by norm_num : (0 : ℚ) < 2) hn0, one_mul, mul_comm]
    norm_cast
  have heven : ((s / n : Nat) : ℤ) % 2 = 0 ↔ s / n % 2 = 0 := by omega
  have hfr2 : (s : ℚ) / (n : ℚ) - ((((s / n : Nat) : ℤ)) : ℚ) =
      ((s % n : Nat) : ℚ) / (n : ℚ) := by
    push_cast
    push_cast at hfr
    exact hfr
  unfold pyRound
  rw [hfloor, hfr2]
  simp only [hlt, hgt, heven]
  unfold pyRoundMean
  split_ifs <;> push_cast <;> ring

/-- Nat equality and its integer image decide identically. -/
theorem natBeq_eq_intBeq (a b : Nat) : (a == b) = ((a : ℤ) == (b : ℤ)) := by
  by_cases h : a = b
  · subst h; simp
  · have h2 : (a : ℤ) ≠ (b : ℤ) := by exact_mod_cast h
    simp [h, h2]

/-- C7: the aggregate rating of lines 370-374 maps each final rating to its
numeric rank, takes the arithmetic mean of all ranks, rounds to the nearest
integer with round-half-to-even tie breaking, and returns the first entry of
the canonical enumeration whose rank equals the rounded value; in
particular the ranks [2, 4] (bronze, gold) yield `silver` of rank 3, and
the ranks [2, 3] (bronze, silver) yield `bronze` of rank 2 (mean 2.5 rounds
down to the even 2). -/
theorem compute_user_average_spec :
    (∀ (gs : List Game) (ns : List Nat),
      gs.mapM (fun g => ratingRank g.rating) = some ns → ns ≠ [] →
      computeUserAverage gs =
        match (RATING_DICT.find? (fun p =>
            (p.2 : ℤ) == pyRound ((ns.sum : ℚ) / (ns.length : ℚ)))).map
            Prod.fst with
        | none => .error .stopIteration
        | some t => .ok t) ∧
    computeUserAverage [⟨"A", "bronze", 0, "1"⟩, ⟨"B", "gold", 0, "2"⟩] =
      .ok "silver" ∧
    ratingRank "bronze" = some 2 ∧ ratingRank "gold" = some 4 ∧
    ratingRank "silver" = some 3 ∧
    computeUserAverage [⟨"A", "bronze", 0, "1"⟩, ⟨"C", "silver", 0, "2"⟩] =
      .ok "bronze" := by
  refine ⟨?_, by decide, by decide, by decide, by decide, by decide⟩
  intro gs ns hmap hne
  unfold computeUserAverage
  simp only [hmap]
  have hlen : ns.length ≠ 0 := fun h => hne (List.length_eq_zero.mp h)
  rw [if_neg hlen]
  have hfun : (fun p : String × Nat => p.2 == pyRoundMean ns.sum ns.length) =
      (fun p : String × Nat =>
        (p.2 : ℤ) == pyRound ((ns.sum : ℚ) / (ns.length : ℚ))) := by
    funext p
    rw [← pyRoundMean_eq_pyRound ns.sum ns.length hlen]
    exact natBeq_eq_intBeq p.2 (pyRoundMean ns.sum ns.length)
  rw [hfun]

/-- Witness for C7: a single `pending` game has rank list [0], and the
aggregate is the first canonical entry whose rank is the rounded mean. -/
theorem compute_user_average_spec_witness :
    computeUserAverage [⟨"A", "pending", 7, "10"⟩] =
      match (RATING_DICT.find? (fun p =>
          (p.2 : ℤ) == pyRound ((([0] : List Nat).sum : ℚ) /
            (([0] : List Nat).length : ℚ)))).map Prod.fst with
      | none => .error .stopIteration
      | some t => .ok t :=
  compute_user_average_spec.1 [⟨"A", "pending", 7, "10"⟩] [0] (by decide)
    (by decide)

/-! ### The concurrency gate (`asyncio.Semaphore(MAX_CONCURRENT_REQUESTS)`) -/

/-- State of one batch's semaphore-gated task pool: the semaphore counter
`avail` and the number of tasks that have not yet acquired the gate
(`pending`), currently hold it (`inFlight`), or have released it (`done`).
`async with semaphore` wraps the whole body of `_fetch_single_game_rating`
(lines 260-270), so every resolution path — cache hit, native
short-circuit, tier lookup, degraded error — acquires and releases the gate
symmetrically; correspondingly the only transitions are one symmetric
acquire/release pair. -/
structure SemState where
  avail : Nat
  pending : Nat
  inFlight : Nat
  done : Nat
deriving DecidableEq

/-- Initial state of a batch of `n` resolver tasks (lines 322-329): a fresh
gate with counter `MAX_CONCURRENT_REQUESTS`, all tasks pending. -/
def semInit (n : Nat) : SemState :=
  ⟨MAX_CONCURRENT_REQUESTS, n, 0, 0⟩

/-- One scheduler step: a pending task acquires the gate (possible only
while the counter is positive; otherwise it blocks), or an in-flight task
finishes, releasing the gate.  Completion order is unconstrained. -/
inductive SemStep : SemState → SemState → Prop
  | acquire (s : SemState) (hp : 0 < s.pending) (ha : 0 < s.avail) :
      SemStep s ⟨s.avail - 1, s.pending - 1, s.inFlight + 1, s.done⟩
  | release (s : SemState) (hf : 0 < s.inFlight) :
      SemStep s ⟨s.avail + 1, s.pending, s.inFlight - 1, s.done + 1⟩

/-- States reachable by some interleaving of a batch of `n` tasks. -/
inductive SemReachable (n : Nat) : SemState → Prop
  | init : SemReachable n (semInit n)
  | step {s t : SemState} : SemReachable n s → SemStep s t → SemReachable n t

/-- Semaphore bookkeeping invariant: the counter and the holders always sum
to the cap, and acquire/release symmetry conserves the tasks. -/
theorem semReachable_inv {n : Nat} {s : SemState} (h : SemReachable n s) :
    s.avail + s.inFlight = MAX_CONCURRENT_REQUESTS ∧
    s.pending + s.inFlight + s.done = n := by
  induction h with
  | init => simp [semInit]
  | step hr hstep ih =>
      cases hstep with
      | acquire hp ha => exact ⟨by simp; omega, by simp; omega⟩
      | release hf => exact ⟨by simp; omega, by simp; omega⟩

/-- C6: for every batch size `n` and every interleaving of acquisitions and
completions, at most `MAX_CONCURRENT_REQUESTS` (20) resolver tasks are in
flight — hence at most 20 concurrent outbound lookups — because the counter
plus the holders always equals the cap; the symmetric acquire/release
bookkeeping also conserves the task count on every resolution path. -/
theorem semaphore_concurrency_bound (n : Nat) (s : SemState)
    (h : SemReachable n s) :
    s.inFlight ≤ MAX_CONCURRENT_REQUESTS ∧
    s.avail + s.inFlight = MAX_CONCURRENT_REQUESTS ∧
    s.pending + s.inFlight + s.done = n := by
  obtain ⟨h1, h2⟩ := semReachable_inv h
  exact ⟨by omega, h1, h2⟩

/-- Witness for C6: after one acquisition in a three-task batch, one task is
in flight — within the cap. -/
theorem semaphore_concurrency_bound_witness :
    (⟨MAX_CONCURRENT_REQUESTS - 1, 2, 1, 0⟩ : SemState).inFlight ≤
      MAX_CONCURRENT_REQUESTS :=
  (semaphore_concurrency_bound 3 _
    (SemReachable.step SemReachable.init
      (SemStep.acquire (semInit 3) (by decide) (by decide)))).1

/-- C8: the cache-commit filtering of lines 352-364 is dead code.  With a
fresh cache already holding appid 10 and a batch re-encountering it, the
filtered copy (`game_ratings_copy`, the list the code comment says protects
cached timestamps) correctly excludes the game, but line 367 commits the
UNFILTERED final list — so the pre-batch entry for 10 is re-committed and
its freshness timestamp refreshed, contradicting the claim. -/
theorem cache_commit_includes_precached :
    (parse_steam_user_games envStub ⟨true, [("10", "gold")]⟩ false false [0]
        ⟨⟨some [⟨10, "A", 5⟩]⟩⟩).toOption.map
      (fun out => (out.committed.map (fun g => g.app_id),
        out.game_ratings_copy.map (fun g => g.app_id))) =
      some (["10"], []) ∧
    (Cache.get_game_data ⟨true, [("10", "gold")]⟩ "10").isSome = true := by
  constructor <;> decide

/-! ### Anti-cheat refresh (`get_anti_cheat_data`, lines 92-128) -/

/-- An anti-cheat record (`AntiCheatData` of `vapor.data_structures`, with
the fields built at lines 118-121): the Steam store id and the status. -/
structure AntiCheatData where
  app_id : String
  status : String
deriving DecidableEq

/-- One raw entry of the AreWeAntiCheatYet payload as lines 117-124 read
it: the optional `steam` key of `storeIds`, and the `status` field. -/
structure AntiCheatEntry where
  steam : Option String
  status : String
deriving DecidableEq

/-- Modelled from the spec: the anti-cheat part of the cache collaborator
(`vapor.cache_handler.Cache` is not among the sources): the freshness flag
`has_anticheat_cache` and the stored record list; `update_anticheat` is
`cache.update_cache(anti_cheat_list=...)` (line 126). -/
structure ACCache where
  has_anticheat_cache : Bool
  anticheat : List AntiCheatData
deriving DecidableEq

/-- Commit a new anti-cheat list to the cache. -/
def ACCache.update_anticheat (c : ACCache) (l : List AntiCheatData) : ACCache :=
  ⟨c.has_anticheat_cache, l⟩

/-- The remote fetch outcome as `get_anti_cheat_data` consumes it: the HTTP
status, and the parse outcome of the body (a JSON decode error, or the
entry list). -/
structure ACResponse where
  status : Nat
  parsed : Except Unit (List AntiCheatEntry)
deriving DecidableEq

/-- Lines 117-124: keep only the entries carrying a `steam` store id, and
convert each into an `AntiCheatData`. -/
def deserializeAC (entries : List AntiCheatEntry) : List AntiCheatData :=
  entries.filterMap (fun e => e.steam.map (fun sid => (⟨sid, e.status⟩ : AntiCheatData)))

/-- Shallow embedding of `get_anti_cheat_data` (lines 92-128).  The first
component is the returned value (`none` embeds Python `None`); the second
records whether the remote fetch was performed.  A fresh cache is returned
unchanged without fetching; a non-success status or a decode error yields
`None`, committing nothing; otherwise the deserialized list is committed
and the cache returned. -/
def get_anti_cheat_data (resp : ACResponse) (cache : ACCache) :
    Option ACCache × Bool :=
  if cache.has_anticheat_cache then (some cache, false)
  else if resp.status ≠ HTTP_SUCCESS then (none, true)
  else
    match resp.parsed with
    | .error _ => (none, true)
    | .ok entries =>
        (some (cache.update_anticheat (deserializeAC entries)), true)

/-- C9 counterexample: with a stale cache and a non-success fetch (status
500), `get_anti_cheat_data` returns `None` — not the unchanged cache the
claim promises. -/
theorem get_anti_cheat_data_soft_failure_counterexample :
    (get_anti_cheat_data ⟨500, .ok []⟩ ⟨false, []⟩).1 = none ∧
    (get_anti_cheat_data ⟨500, .ok []⟩ ⟨false, []⟩).1 ≠
      some ⟨false, []⟩ := by
  constructor <;> decide

/-- C9 (amended): if the anti-cheat cache is fresh the function returns the
cache unchanged and performs no fetch; otherwise, on a non-success status
or an unparsable payload it returns `None` — surfacing no error and
committing nothing, so the stored cache stays unchanged — and only on a
successful, parsable fetch does it return the cache updated with the
deserialized records. -/
theorem get_anti_cheat_data_behaviour (resp : ACResponse) (cache : ACCache) :
    (cache.has_anticheat_cache = true →
      get_anti_cheat_data resp cache = (some cache, false)) ∧
    (cache.has_anticheat_cache = false → resp.status ≠ HTTP_SUCCESS →
      get_anti_cheat_data resp cache = (none, true)) ∧
    (∀ e, cache.has_anticheat_cache = false → resp.parsed = .error e →
      get_anti_cheat_data resp cache = (none, true)) ∧
    (∀ entries, cache.has_anticheat_cache = false →
      resp.status = HTTP_SUCCESS → resp.parsed = .ok entries →
      get_anti_cheat_data resp cache =
        (some (cache.update_anticheat (deserializeAC entries)), true)) := by
  refine ⟨?_, ?_, ?_, ?_⟩ <;> unfold get_anti_cheat_data
  · intro hf
    rw [if_pos hf]
  · intro hf hs
    rw [if_neg (by simp [hf]), if_pos hs]
  · intro e hf hp
    rw [if_neg (by simp [hf])]
    by_cases hs : resp.status ≠ HTTP_SUCCESS
    · rw [if_pos hs]
    · rw [if_neg hs, hp]
  · intro entries hf hs hp
    rw [if_neg (by simp [hf]), if_neg (by simp [hs]), hp]

/-- Witness for C9 (amended): a fresh cache is returned unchanged with no
fetch, even when the would-be fetch would fail. -/
theorem get_anti_cheat_data_behaviour_witness :
    get_anti_cheat_data ⟨500, .ok []⟩ ⟨true, [⟨"1", "Denied"⟩]⟩ =
      (some ⟨true, [⟨"1", "Denied"⟩]⟩, false) :=
  (get_anti_cheat_data_behaviour ⟨500, .ok []⟩
    ⟨true, [⟨"1", "Denied"⟩]⟩).1 rfl

end Vapor
